import Mathlib

/-!
# orders-api: the Redis order repository

A shallow embedding of `repository/order/redis.go` (package `order`) and a
verification of its storage contract: key encoding, insert, point lookup,
update, delete and enumeration.

The Go code talks to Redis through `github.com/redis/go-redis/v9`.  The
client is an external library; the part of it the repository calls is
modelled below, command by command, on a pure store:

* `Client.Get(...).Result()` gives the value, or the error `redis.Nil` when
  the key is absent;
* `Client.Del(...).Err()` removes the key; the reply is the number of keys
  removed, so the error is `nil` whether or not the key existed;
* `Client.SetXX(...).Err()` writes only when the key exists; the reply is a
  boolean (`BoolCmd` turns the nil reply of a refused write into `false`),
  so the error is `nil` whether or not the write happened;
* `Client.TxPipeline()` gives an empty command queue; `SetNX` and `SAdd` on
  it append to the queue and hand back a command whose error is still `nil`;
  nothing reaches the server before `Exec`.

A round trip that fails for a reason of its own (network, timeout) is an
input of the model: each operation that makes a round trip takes the error
of that round trip, `none` when it goes through, and a failed round trip
leaves the store as it was.
-/

namespace OrdersApi

/-! ## Errors -/

/-- Go `error` values the repository can see: the go-redis sentinel
`redis.Nil`, the repository sentinel `ErrNotExists`, any other base error,
and `fmt.Errorf("<msg>: %w", inner)`. -/
inductive Err where
  | redisNil : Err
  | ErrNotExists : Err
  | other (msg : String) : Err
  | wrap (msg : String) (inner : Err) : Err
  deriving DecidableEq, Repr

/-- Go `errors.Is(err, target)`: `err` or some error it wraps is `target`. -/
def errorsIs : Err → Err → Bool
  | .wrap msg inner, target =>
      decide (Err.wrap msg inner = target) || errorsIs inner target
  | e, target => decide (e = target)

/-! ## The backend store and the go-redis commands -/

/-- State of the Redis server: string keys with string values, and named
sets of strings.  The two maps are kept apart, so the states described are
those in which no name holds a string and a set at once; the repository
itself keeps them apart, since no `orderIDKey id` is the set name "orders". -/
structure Store where
  kv : String → Option String
  sets : String → List String

/-- Value of `r.Client.Get(ctx, key).Result()`. -/
def Client.Get (fault : Option Err) (s : Store) (key : String) : Except Err String :=
  match fault with
  | some e => .error e
  | none =>
    match s.kv key with
    | none => .error Err.redisNil
    | some v => .ok v

/-- Value of `r.Client.Del(ctx, key).Err()` and the store afterwards. -/
def Client.Del (fault : Option Err) (s : Store) (key : String) : Option Err × Store :=
  match fault with
  | some e => (some e, s)
  | none => (none, { s with kv := fun k => if k = key then none else s.kv k })

/-- Value of `r.Client.SetXX(ctx, key, value, 0).Err()` and the store
afterwards. -/
def Client.SetXX (fault : Option Err) (s : Store) (key value : String) :
    Option Err × Store :=
  match fault with
  | some e => (some e, s)
  | none =>
    match s.kv key with
    | some _ => (none, { s with kv := fun k => if k = key then some value else s.kv k })
    | none => (none, s)

/-- Commands a transaction pipeline can hold. -/
inductive Cmd where
  | setNX (key value : String) : Cmd
  | sAdd (set member : String) : Cmd
  deriving DecidableEq, Repr

/-- Value of `redis.Pipeliner`: the commands queued so far. -/
structure Pipeline where
  queue : List Cmd
  deriving DecidableEq, Repr

/-- Value of `r.Client.TxPipeline()`. -/
def Client.TxPipeline : Pipeline := ⟨[]⟩

/-- Effect of `txn.SetNX(ctx, key, value, 0)`: the command is queued; the
error of the returned command is `nil`. -/
def Pipeline.SetNX (txn : Pipeline) (key value : String) : Pipeline × Option Err :=
  (⟨txn.queue ++ [Cmd.setNX key value]⟩, none)

/-- Effect of `txn.SAdd(ctx, set, member)`: the command is queued; the error
of the returned command is `nil`. -/
def Pipeline.SAdd (txn : Pipeline) (set member : String) : Pipeline × Option Err :=
  (⟨txn.queue ++ [Cmd.sAdd set member]⟩, none)

/-- Effect of one queued command on the server. -/
def Cmd.apply (s : Store) : Cmd → Store
  | .setNX key value =>
    match s.kv key with
    | some _ => s
    | none => { s with kv := fun k => if k = key then some value else s.kv k }
  | .sAdd set member =>
    if member ∈ s.sets set then s
    else { s with sets := fun n => if n = set then s.sets set ++ [member] else s.sets n }

/-- Effect of `txn.Exec(ctx)`: the queued commands run in order. -/
def Pipeline.Exec (txn : Pipeline) (s : Store) : Store :=
  txn.queue.foldl Cmd.apply s

/-! ## The order model -/

/-- Parameters of the repository that live in package `model` and in
`encoding/json`: the zero value `model.Order{}`, the field `OrderID`
(a `uint64`), `json.Marshal` and `json.Unmarshal` at type `model.Order`. -/
structure Codec (Order : Type) where
  zero : Order
  OrderID : Order → Nat
  Marshal : Order → Except Err String
  Unmarshal : String → Except Err Order

/-! ## `repository/order/redis.go` -/

/-- Go `orderIDKey`: `fmt.Sprintf("order:%d", id)`. -/
def orderIDKey (id : Nat) : String :=
  "order:" ++ Nat.repr id

/-- Go `var ErrNotExists = errors.New("order not exists")`. -/
def ErrNotExists : Err := Err.ErrNotExists

section Repo

variable {Order : Type} (c : Codec Order)

/-- Go `(*RedisRepo).Insert`.  The pipeline is built and dropped: the
function has no `txn.Exec`.  The source line `txn = r.Client.TxPipeline()`
is read as the declaration `txn := r.Client.TxPipeline()`. -/
def Insert (s : Store) (order : Order) : Option Err × Store :=
  match c.Marshal order with
  | .error err => (some (Err.wrap "failed to marshal order" err), s)
  | .ok data =>
    let key := orderIDKey (c.OrderID order)
    let txn := Client.TxPipeline
    let (txn, res) := txn.SetNX key data
    match res with
    | some err => (some (Err.wrap ("failed to set key " ++ key) err), s)
    | none =>
      match (txn.SAdd "orders" key).2 with
      | some err =>
        (some (Err.wrap ("failed to add key " ++ key ++ " to set orders") err), s)
      | none => (none, s)

/-- Go `(*RedisRepo).FindByID`. -/
def FindByID (fault : Option Err) (s : Store) (id : Nat) : Order × Option Err :=
  let key := orderIDKey id
  match Client.Get fault s key with
  | .error err =>
    if errorsIs err Err.redisNil then (c.zero, some ErrNotExists)
    else (c.zero, some (Err.wrap "get order" err))
  | .ok value =>
    match c.Unmarshal value with
    | .error err => (c.zero, some (Err.wrap "failed to decode order json" err))
    | .ok order => (order, none)

/-- Go `(*RedisRepo).DeleteByID`. -/
def DeleteByID (fault : Option Err) (s : Store) (id : Nat) : Option Err × Store :=
  let key := orderIDKey id
  match Client.Del fault s key with
  | (some err, s1) =>
    if errorsIs err Err.redisNil then (some ErrNotExists, s1)
    else (some (Err.wrap "get order" err), s1)
  | (none, s1) => (none, s1)

/-- Go `(*RedisRepo).Update`. -/
def Update (fault : Option Err) (s : Store) (order : Order) : Option Err × Store :=
  match c.Marshal order with
  | .error err => (some (Err.wrap "failed to marshal order" err), s)
  | .ok data =>
    let key := orderIDKey (c.OrderID order)
    match Client.SetXX fault s key data with
    | (some err, s1) =>
      if errorsIs err Err.redisNil then (some ErrNotExists, s1)
      else (some (Err.wrap "get order" err), s1)
    | (none, s1) => (none, s1)

/-- Go `type FindAllPage struct`. -/
structure FindAllPage where
  Size : Nat
  Offset : Nat
  deriving DecidableEq, Repr

end Repo

/-- Go `(*RedisRepo).FindAll`: the body is `return nil, nil`; the method
takes no page and `FindAllPage` is used nowhere. -/
def FindAll {Order : Type} (_c : Codec Order) (_s : Store) : List Order × Option Err :=
  ([], none)

/-! ## Sample data

Package `model` is not among the sources.  The scenarios are run on a small
order type with the two fields scenario A names and a line-oriented stand-in
for `encoding/json`. -/

/-- Value of a string of decimal digits, read left to right from `acc`. -/
def digitsValue (acc : Nat) (cs : List Char) : Nat :=
  cs.foldl (fun a ch => a * 10 + (ch.toNat - 48)) acc

/-- Modelled from the spec: `model.Order` is missing; an order is its
`OrderID` and a `status`, as in scenario A. -/
structure SampleOrder where
  OrderID : Nat
  Status : String
  deriving DecidableEq, Repr

/-- Serialized record of a sample order: the id in decimal, a semicolon, the
status. -/
def sampleEncode (o : SampleOrder) : String :=
  Nat.repr o.OrderID ++ ";" ++ o.Status

/-- Decoder for `sampleEncode`; text without a leading decimal id and a
semicolon is rejected. -/
def sampleDecode (value : String) : Except Err SampleOrder :=
  let idPart := value.data.takeWhile (fun ch => ch.isDigit)
  match value.data.dropWhile (fun ch => ch.isDigit) with
  | ch :: rest =>
    if ch = ';' ∧ idPart ≠ [] then .ok ⟨digitsValue 0 idPart, String.mk rest⟩
    else .error (Err.other "invalid character looking for beginning of value")
  | [] => .error (Err.other "unexpected end of JSON input")

/-- Codec of the sample orders. -/
def sampleCodec : Codec SampleOrder :=
  { zero := ⟨0, ""⟩
    OrderID := SampleOrder.OrderID
    Marshal := fun o => .ok (sampleEncode o)
    Unmarshal := sampleDecode }

/-- Store with no key and no set member. -/
def emptyStore : Store :=
  { kv := fun _ => none, sets := fun _ => [] }

/-- Store that holds the given sample orders, each under its key, with every
key in the set "orders". -/
def storeOf (os : List SampleOrder) : Store :=
  { kv := fun k =>
      (os.find? (fun o => decide (orderIDKey o.OrderID = k))).map sampleEncode
    sets := fun n => if n = "orders" then os.map (fun o => orderIDKey o.OrderID) else [] }

/-- Orders 1 to 5 of scenario D. -/
def fiveOrders : List SampleOrder :=
  [⟨1, "new"⟩, ⟨2, "new"⟩, ⟨3, "new"⟩, ⟨4, "new"⟩, ⟨5, "new"⟩]

/-! ## Decimal rendering -/

theorem digitChar_toNat (d : Nat) (h : d < 10) : (Nat.digitChar d).toNat - 48 = d := by
  interval_cases d <;> rfl

theorem digitsValue_toDigitsCore (fuel : Nat) :
    ∀ (n : Nat) (ds : List Char), n < fuel →
      digitsValue 0 (Nat.toDigitsCore 10 fuel n ds) = digitsValue n ds := by
  induction fuel with
  | zero => intro n ds h; omega
  | succ fuel ih =>
    intro n ds h
    have hd : (Nat.digitChar (n % 10)).toNat - 48 = n % 10 :=
      digitChar_toNat _ (Nat.mod_lt _ (by decide))
    unfold Nat.toDigitsCore
    by_cases hz : n / 10 = 0
    · have hn : n % 10 = n := by omega
      rw [hn] at hd
      simp only [hz, if_true, hn]
      simp only [digitsValue, List.foldl_cons, hd, Nat.zero_mul, Nat.zero_add]
    · simp only [hz, if_false]
      rw [ih (n / 10) _ (by omega)]
      simp only [digitsValue, List.foldl_cons, hd]
      congr 1
      omega

theorem digitsValue_repr (n : Nat) : digitsValue 0 (Nat.repr n).data = n := by
  simp only [Nat.repr, Nat.toDigits, List.asString]
  exact digitsValue_toDigitsCore (n + 1) n [] (Nat.lt_succ_self n)

theorem repr_injective (a b : Nat) (h : Nat.repr a = Nat.repr b) : a = b := by
  have ha := digitsValue_repr a
  rw [h, digitsValue_repr b] at ha
  exact ha.symm

theorem orderIDKey_injective (a b : Nat) (h : orderIDKey a = orderIDKey b) : a = b := by
  apply repr_injective
  have h1 : (orderIDKey a).data = (orderIDKey b).data := by rw [h]
  simp only [orderIDKey, String.data_append] at h1
  exact String.ext (List.append_cancel_left h1)

theorem orderIDKey_ne_orders (id : Nat) : orderIDKey id ≠ "orders" := by
  intro h
  have h1 : (orderIDKey id).data = "orders".data := by rw [h]
  simp only [orderIDKey, String.data_append] at h1
  have h2 := congrArg (fun l => l.get? 5) h1
  simp at h2

/-! ## Shared facts about the commands -/

theorem errorsIs_wrap_ne_sentinel (msg : String) (e : Err) :
    Err.wrap msg e ≠ ErrNotExists := by
  intro h
  cases h

theorem Insert_of_marshal {Order : Type} (c : Codec Order) (s : Store) (order : Order)
    (data : String) (hm : c.Marshal order = .ok data) : Insert c s order = (none, s) := by
  simp [Insert, hm, Client.TxPipeline, Pipeline.SetNX, Pipeline.SAdd]

theorem Insert_store {Order : Type} (c : Codec Order) (s : Store) (order : Order) :
    (Insert c s order).2 = s := by
  cases hm : c.Marshal order with
  | error e => simp [Insert, hm]
  | ok data => rw [Insert_of_marshal c s order data hm]

theorem FindByID_absent {Order : Type} (c : Codec Order) (s : Store) (id : Nat)
    (h : s.kv (orderIDKey id) = none) :
    FindByID c none s id = (c.zero, some ErrNotExists) := by
  simp [FindByID, Client.Get, h, errorsIs]

theorem FindByID_fault {Order : Type} (c : Codec Order) (s : Store) (id : Nat) (e : Err)
    (h : errorsIs e Err.redisNil = false) :
    FindByID c (some e) s id = (c.zero, some (Err.wrap "get order" e)) := by
  simp [FindByID, Client.Get, h]

theorem FindByID_present {Order : Type} (c : Codec Order) (s : Store) (id : Nat)
    (value : String) (order : Order) (h : s.kv (orderIDKey id) = some value)
    (hu : c.Unmarshal value = .ok order) :
    FindByID c none s id = (order, none) := by
  simp [FindByID, Client.Get, h, hu]

theorem DeleteByID_ok (s : Store) (id : Nat) :
    DeleteByID none s id =
      (none, { s with kv := fun k => if k = orderIDKey id then none else s.kv k }) := by
  simp [DeleteByID, Client.Del]

theorem Update_absent {Order : Type} (c : Codec Order) (s : Store) (order : Order)
    (data : String) (hm : c.Marshal order = .ok data)
    (h : s.kv (orderIDKey (c.OrderID order)) = none) :
    Update c none s order = (none, s) := by
  simp [Update, hm, Client.SetXX, h]

theorem Update_present {Order : Type} (c : Codec Order) (s : Store) (order : Order)
    (data old : String) (hm : c.Marshal order = .ok data)
    (h : s.kv (orderIDKey (c.OrderID order)) = some old) :
    Update c none s order =
      (none, { s with kv := fun k =>
        if k = orderIDKey (c.OrderID order) then some data else s.kv k }) := by
  simp [Update, hm, Client.SetXX, h]

theorem flatMap_nil_const {α β : Type} (l : List α) :
    (l.flatMap fun _ => ([] : List β)) = [] := by
  induction l with
  | nil => rfl
  | cons a l ih => simp

/-! ## Insert -/

/-- C1: scenario A run on the code.  The store is empty, the order
`{OrderID: 1, status: "new"}` decodes back from its own serialization, and
`Insert` returns nil; yet `FindByID(1)` on the store `Insert` leaves behind
returns the zero order with `ErrNotExists`, not the inserted order.  On the
store the queued batch would give if it were executed, `FindByID(1)` returns
the inserted order. -/
theorem C1_insert_then_find_is_not_found :
    emptyStore.kv (orderIDKey 1) = none ∧
    sampleCodec.Marshal ⟨1, "new"⟩ = .ok "1;new" ∧
    sampleCodec.Unmarshal "1;new" = .ok ⟨1, "new"⟩ ∧
    (Insert sampleCodec emptyStore ⟨1, "new"⟩).1 = none ∧
    FindByID sampleCodec none (Insert sampleCodec emptyStore ⟨1, "new"⟩).2 1 =
      (⟨0, ""⟩, some ErrNotExists) ∧
    FindByID sampleCodec none (Insert sampleCodec emptyStore ⟨1, "new"⟩).2 1 ≠
      (⟨1, "new"⟩, none) ∧
    FindByID sampleCodec none
      (((Client.TxPipeline.SetNX (orderIDKey 1) "1;new").1.SAdd "orders"
        (orderIDKey 1)).1.Exec emptyStore) 1 = (⟨1, "new"⟩, none) :=
  ⟨rfl, rfl, rfl, rfl, rfl, by decide, rfl⟩

/-- C2, as stated, fails: the key of order 1 exists in the store, and
`Insert` of an order with that id returns nil, not a duplicate-ID error. -/
theorem C2_duplicate_insert_returns_nil :
    (storeOf [⟨1, "new"⟩]).kv (orderIDKey 1) = some "1;new" ∧
    (Insert sampleCodec (storeOf [⟨1, "new"⟩]) ⟨1, "paid"⟩).1 = none :=
  ⟨rfl, rfl⟩

/-- C2, amended: when the key of `order.OrderID` already exists, `Insert`
leaves the value stored at that key unchanged, and it reports no duplicate:
it returns nil when the order serializes, and the wrapped marshal error when
it does not. -/
theorem C2_insert_existing_keeps_value {Order : Type} (c : Codec Order) (s : Store)
    (order : Order) (old : String) (h : s.kv (orderIDKey (c.OrderID order)) = some old) :
    (Insert c s order).2.kv (orderIDKey (c.OrderID order)) = some old ∧
    (Insert c s order).1 =
      match c.Marshal order with
      | .ok _ => none
      | .error err => some (Err.wrap "failed to marshal order" err) := by
  refine ⟨?_, ?_⟩
  · rw [Insert_store, h]
  · cases hm : c.Marshal order with
    | error e => simp [Insert, hm]
    | ok data => rw [Insert_of_marshal c s order data hm]

theorem C2_insert_existing_keeps_value_witness :
    (storeOf [⟨1, "new"⟩]).kv (orderIDKey (sampleCodec.OrderID ⟨1, "paid"⟩)) = some "1;new" ∧
    ((Insert sampleCodec (storeOf [⟨1, "new"⟩]) ⟨1, "paid"⟩).2.kv
        (orderIDKey (sampleCodec.OrderID ⟨1, "paid"⟩)) = some "1;new" ∧
      (Insert sampleCodec (storeOf [⟨1, "new"⟩]) ⟨1, "paid"⟩).1 =
        match sampleCodec.Marshal ⟨1, "paid"⟩ with
        | .ok _ => none
        | .error err => some (Err.wrap "failed to marshal order" err)) :=
  ⟨rfl, C2_insert_existing_keeps_value sampleCodec (storeOf [⟨1, "new"⟩]) ⟨1, "paid"⟩
    "1;new" rfl⟩

/-- C10: for every store state and every order that serializes, `Insert`
returns nil and the store after it is the store before it, key values and
index set alike.  The batch it builds holds the set-if-absent of the key and
the add of the key to the set "orders", and is never executed. -/
theorem C10_insert_leaves_store {Order : Type} (c : Codec Order) (s : Store)
    (order : Order) (data : String) (hm : c.Marshal order = .ok data) :
    Insert c s order = (none, s) ∧
    ((Client.TxPipeline.SetNX (orderIDKey (c.OrderID order)) data).1.SAdd "orders"
        (orderIDKey (c.OrderID order))).1.queue =
      [Cmd.setNX (orderIDKey (c.OrderID order)) data,
       Cmd.sAdd "orders" (orderIDKey (c.OrderID order))] :=
  ⟨Insert_of_marshal c s order data hm, rfl⟩

theorem C10_insert_leaves_store_witness :
    sampleCodec.Marshal ⟨1, "new"⟩ = .ok "1;new" ∧
    (Insert sampleCodec emptyStore ⟨1, "new"⟩ = (none, emptyStore) ∧
      ((Client.TxPipeline.SetNX (orderIDKey (sampleCodec.OrderID ⟨1, "new"⟩)) "1;new").1.SAdd
          "orders" (orderIDKey (sampleCodec.OrderID ⟨1, "new"⟩))).1.queue =
        [Cmd.setNX (orderIDKey (sampleCodec.OrderID ⟨1, "new"⟩)) "1;new",
         Cmd.sAdd "orders" (orderIDKey (sampleCodec.OrderID ⟨1, "new"⟩))]) :=
  ⟨rfl, C10_insert_leaves_store sampleCodec emptyStore ⟨1, "new"⟩ "1;new" rfl⟩

/-! ## Update -/

/-- C3: scenario C run on the code.  The key of order 2 is absent from the
empty store, and `Update` returns nil instead of `ErrNotExists`; it creates
nothing: the key is still absent and the set "orders" is still empty. -/
theorem C3_update_absent_returns_nil :
    emptyStore.kv (orderIDKey 2) = none ∧
    (Update sampleCodec none emptyStore ⟨2, "new"⟩).1 = none ∧
    (Update sampleCodec none emptyStore ⟨2, "new"⟩).1 ≠ some ErrNotExists ∧
    (Update sampleCodec none emptyStore ⟨2, "new"⟩).2.kv (orderIDKey 2) = none ∧
    (Update sampleCodec none emptyStore ⟨2, "new"⟩).2.sets "orders" = [] :=
  ⟨rfl, rfl, by decide, rfl, rfl⟩

/-- C9: when the key of `order.OrderID` exists, the order is valid (it
decodes back from its serialization) and the round trip goes through,
`Update` returns nil, the key holds the serialization of the order, a
following `FindByID` returns the order, the same keys exist as before, every
other key keeps its value, and every set, "orders" among them, is unchanged. -/
theorem C9_update_existing_replaces {Order : Type} (c : Codec Order) (s : Store)
    (order : Order) (data old : String) (hm : c.Marshal order = .ok data)
    (hu : c.Unmarshal data = .ok order)
    (h : s.kv (orderIDKey (c.OrderID order)) = some old) :
    (Update c none s order).1 = none ∧
    (Update c none s order).2.kv (orderIDKey (c.OrderID order)) = some data ∧
    FindByID c none (Update c none s order).2 (c.OrderID order) = (order, none) ∧
    (∀ k, ((Update c none s order).2.kv k).isSome = (s.kv k).isSome) ∧
    (∀ k, k ≠ orderIDKey (c.OrderID order) → (Update c none s order).2.kv k = s.kv k) ∧
    (Update c none s order).2.sets = s.sets := by
  rw [Update_present c s order data old hm h]
  refine ⟨rfl, by simp, ?_, ?_, ?_, rfl⟩
  · exact FindByID_present c _ _ data order (by simp) hu
  · intro k
    by_cases hk : k = orderIDKey (c.OrderID order)
    · simp [hk, h]
    · simp [hk]
  · intro k hk
    simp [hk]

theorem C9_update_existing_replaces_witness :
    sampleCodec.Marshal ⟨1, "paid"⟩ = .ok "1;paid" ∧
    sampleCodec.Unmarshal "1;paid" = .ok ⟨1, "paid"⟩ ∧
    (storeOf [⟨1, "new"⟩]).kv (orderIDKey (sampleCodec.OrderID ⟨1, "paid"⟩)) = some "1;new" ∧
    ((Update sampleCodec none (storeOf [⟨1, "new"⟩]) ⟨1, "paid"⟩).1 = none ∧
      (Update sampleCodec none (storeOf [⟨1, "new"⟩]) ⟨1, "paid"⟩).2.kv
        (orderIDKey (sampleCodec.OrderID ⟨1, "paid"⟩)) = some "1;paid" ∧
      FindByID sampleCodec none (Update sampleCodec none (storeOf [⟨1, "new"⟩]) ⟨1, "paid"⟩).2
        (sampleCodec.OrderID ⟨1, "paid"⟩) = (⟨1, "paid"⟩, none) ∧
      (∀ k, ((Update sampleCodec none (storeOf [⟨1, "new"⟩]) ⟨1, "paid"⟩).2.kv k).isSome =
        ((storeOf [⟨1, "new"⟩]).kv k).isSome) ∧
      (∀ k, k ≠ orderIDKey (sampleCodec.OrderID ⟨1, "paid"⟩) →
        (Update sampleCodec none (storeOf [⟨1, "new"⟩]) ⟨1, "paid"⟩).2.kv k =
          (storeOf [⟨1, "new"⟩]).kv k) ∧
      (Update sampleCodec none (storeOf [⟨1, "new"⟩]) ⟨1, "paid"⟩).2.sets =
        (storeOf [⟨1, "new"⟩]).sets) :=
  ⟨rfl, rfl, rfl,
    C9_update_existing_replaces sampleCodec (storeOf [⟨1, "new"⟩]) ⟨1, "paid"⟩
      "1;paid" "1;new" rfl rfl rfl⟩

/-! ## Delete -/

/-- C4, as stated, fails: order 1 is stored and its key is in the set
"orders".  `DeleteByID(1)` returns nil and a following `FindByID(1)` returns
`ErrNotExists`, but the key of order 1 is still a member of the set "orders". -/
theorem C4_delete_keeps_index_member :
    (storeOf [⟨1, "new"⟩]).kv (orderIDKey 1) = some "1;new" ∧
    orderIDKey 1 ∈ (storeOf [⟨1, "new"⟩]).sets "orders" ∧
    (DeleteByID none (storeOf [⟨1, "new"⟩]) 1).1 = none ∧
    FindByID sampleCodec none (DeleteByID none (storeOf [⟨1, "new"⟩]) 1).2 1 =
      (⟨0, ""⟩, some ErrNotExists) ∧
    orderIDKey 1 ∈ (DeleteByID none (storeOf [⟨1, "new"⟩]) 1).2.sets "orders" :=
  ⟨rfl, by decide, rfl, rfl, by decide⟩

/-- C4, amended: if `DeleteByID(id)` returns without error, then afterwards
the key of `id` is absent, `FindByID(id)` returns the zero order with
`ErrNotExists`, every other key keeps its value, and every set is as it was
before: the key of `id` is a member of "orders" after the call exactly when
it was a member before. -/
theorem C4_delete_then_find_not_found {Order : Type} (c : Codec Order)
    (fault : Option Err) (s : Store) (id : Nat) (h : (DeleteByID fault s id).1 = none) :
    (DeleteByID fault s id).2.kv (orderIDKey id) = none ∧
    FindByID c none (DeleteByID fault s id).2 id = (c.zero, some ErrNotExists) ∧
    (∀ k, k ≠ orderIDKey id → (DeleteByID fault s id).2.kv k = s.kv k) ∧
    (DeleteByID fault s id).2.sets = s.sets ∧
    (orderIDKey id ∈ (DeleteByID fault s id).2.sets "orders" ↔
      orderIDKey id ∈ s.sets "orders") := by
  cases fault with
  | some e =>
    exfalso
    revert h
    simp only [DeleteByID, Client.Del]
    split <;> simp
  | none =>
    rw [DeleteByID_ok]
    refine ⟨by simp, FindByID_absent c _ id (by simp), ?_, rfl, Iff.rfl⟩
    intro k hk
    simp [hk]

theorem C4_delete_then_find_not_found_witness :
    (DeleteByID none (storeOf [⟨1, "new"⟩]) 1).1 = none ∧
    ((DeleteByID none (storeOf [⟨1, "new"⟩]) 1).2.kv (orderIDKey 1) = none ∧
      FindByID sampleCodec none (DeleteByID none (storeOf [⟨1, "new"⟩]) 1).2 1 =
        (sampleCodec.zero, some ErrNotExists) ∧
      (∀ k, k ≠ orderIDKey 1 →
        (DeleteByID none (storeOf [⟨1, "new"⟩]) 1).2.kv k = (storeOf [⟨1, "new"⟩]).kv k) ∧
      (DeleteByID none (storeOf [⟨1, "new"⟩]) 1).2.sets = (storeOf [⟨1, "new"⟩]).sets ∧
      (orderIDKey 1 ∈ (DeleteByID none (storeOf [⟨1, "new"⟩]) 1).2.sets "orders" ↔
        orderIDKey 1 ∈ (storeOf [⟨1, "new"⟩]).sets "orders")) :=
  ⟨rfl, C4_delete_then_find_not_found sampleCodec none (storeOf [⟨1, "new"⟩]) 1 rfl⟩

/-- C5: the key of order 7 is absent from the empty store, and
`DeleteByID(7)` returns nil instead of `ErrNotExists`. -/
theorem C5_delete_absent_returns_nil :
    emptyStore.kv (orderIDKey 7) = none ∧
    (DeleteByID none emptyStore 7).1 = none ∧
    (DeleteByID none emptyStore 7).1 ≠ some ErrNotExists :=
  ⟨rfl, rfl, by decide⟩

/-! ## Key encoding -/

/-- C6: `orderIDKey` is "order:" followed by the decimal digits of the id,
and two different 64-bit unsigned ids have different keys. -/
theorem C6_orderIDKey_injective (id1 id2 : Nat) :
    id1 < 2 ^ 64 → id2 < 2 ^ 64 → id1 ≠ id2 →
      orderIDKey id1 ≠ orderIDKey id2 ∧
      orderIDKey id1 = "order:" ++ String.mk (Nat.toDigits 10 id1) ∧
      digitsValue 0 (Nat.toDigits 10 id1) = id1 :=
  fun _ _ hne => ⟨fun h => hne (orderIDKey_injective id1 id2 h), rfl, digitsValue_repr id1⟩

theorem C6_orderIDKey_injective_witness :
    (1 : Nat) < 2 ^ 64 ∧ (10 : Nat) < 2 ^ 64 ∧ (1 : Nat) ≠ 10 ∧
    (orderIDKey 1 ≠ orderIDKey 10 ∧
      orderIDKey 1 = "order:" ++ String.mk (Nat.toDigits 10 1) ∧
      digitsValue 0 (Nat.toDigits 10 1) = 1) :=
  ⟨by decide, by decide, by decide,
    C6_orderIDKey_injective 1 10 (by decide) (by decide) (by decide)⟩

/-! ## Point lookup -/

/-- C7: when the key of `id` is absent and the round trip goes through,
`FindByID` returns the zero order with the sentinel `ErrNotExists` itself;
when the round trip fails with an error `e` that is not `redis.Nil`, then in
every store and for every id it returns the zero order with `e` wrapped,
which is not the sentinel. -/
theorem C7_find_absent_is_sentinel {Order : Type} (c : Codec Order) (s : Store) (id : Nat)
    (e : Err) (h : s.kv (orderIDKey id) = none) (he : errorsIs e Err.redisNil = false) :
    FindByID c none s id = (c.zero, some ErrNotExists) ∧
    (∀ s2 id2, FindByID c (some e) s2 id2 = (c.zero, some (Err.wrap "get order" e))) ∧
    Err.wrap "get order" e ≠ ErrNotExists :=
  ⟨FindByID_absent c s id h, fun s2 id2 => FindByID_fault c s2 id2 e he,
    errorsIs_wrap_ne_sentinel _ e⟩

theorem C7_find_absent_is_sentinel_witness :
    emptyStore.kv (orderIDKey 1) = none ∧
    errorsIs (Err.other "i/o timeout") Err.redisNil = false ∧
    (FindByID sampleCodec none emptyStore 1 = (sampleCodec.zero, some ErrNotExists) ∧
      (∀ s2 id2, FindByID sampleCodec (some (Err.other "i/o timeout")) s2 id2 =
        (sampleCodec.zero, some (Err.wrap "get order" (Err.other "i/o timeout")))) ∧
      Err.wrap "get order" (Err.other "i/o timeout") ≠ ErrNotExists) :=
  ⟨rfl, rfl,
    C7_find_absent_is_sentinel sampleCodec emptyStore 1 (Err.other "i/o timeout") rfl rfl⟩

/-! ## Enumeration -/

/-- C8: scenario D run on the code.  The store holds orders 1 to 5, each
under its key and each key in the set "orders", and each is found by
`FindByID`; `FindAll` returns no record, so it returns neither the third and
fourth record nor, however many pages are concatenated, the five orders. -/
theorem C8_findAll_returns_nothing :
    (storeOf fiveOrders).sets "orders" =
      ["order:1", "order:2", "order:3", "order:4", "order:5"] ∧
    fiveOrders.map (fun o => FindByID sampleCodec none (storeOf fiveOrders) o.OrderID) =
      fiveOrders.map (fun o => (o, none)) ∧
    (FindAll sampleCodec (storeOf fiveOrders)).1 = [] ∧
    (FindAll sampleCodec (storeOf fiveOrders)).1 ≠ [⟨3, "new"⟩, ⟨4, "new"⟩] ∧
    ∀ n, ((List.range n).flatMap fun _ => (FindAll sampleCodec (storeOf fiveOrders)).1) ≠
      fiveOrders :=
  ⟨rfl, rfl, rfl, by decide, fun n => by
    rw [show (FindAll sampleCodec (storeOf fiveOrders)).1 = [] from rfl, flatMap_nil_const]
    decide⟩

end OrdersApi
